import Mathlib

/-!
Verification of the agent control loop in `rednote.py` (小红书文案生成助手).

This file gives a shallow embedding of the program's core:
* a model of Python's `json` module (`jsonLoads`), sufficient for the strings
  the program parses and produces;
* a model of the regular-expression extraction
  `re.search(r"```json\s*(\{.*\})\s*```", content, re.DOTALL)` used by the
  response parser (`searchFence`, `parseResponse`);
* the mock tool handlers and the tool-dispatch code of `generate_rednote`;
* the agent loop `generate_rednote` itself, with the remote model abstracted
  as an oracle (one `ModelOutcome` per invocation) and the process-wide RNG
  used by `random.sample` abstracted as an explicit sampling function;
* the renderer `format_rednote_for_markdown`.

Machine/library behaviours that the claims do not touch are modelled up to
the following abstractions, each noted where it occurs: the text of Python
exception messages is replaced by a fixed token; `float` numerics are
represented by `Rat`; lone UTF-16 surrogates in `\u` escapes (which Lean's
`Char` cannot represent) map through `Char.ofNat`'s default.
-/

/-- A single-quote character, kept out of string literals. -/
def squote : String := String.singleton (Char.ofNat 39)

/-- Values produced by Python's `json.loads`.  Object fields are kept in
parse order; `pyDict` below reproduces the last-key-wins behaviour of the
`dict` that `json.loads` actually builds.  `nan`/`inf` model the
non-standard `NaN`/`Infinity`/`-Infinity` tokens Python accepts. -/
inductive Json where
  | null
  | bool (b : Bool)
  | num (q : Rat)
  | nan
  | inf (neg : Bool)
  | str (s : String)
  | arr (elems : List Json)
  | obj (fields : List (String × Json))
deriving Repr

/-- JSON whitespace, exactly the four characters `json.loads` skips. -/
def isJsonWs (c : Char) : Bool :=
  c = ' ' || c = '\t' || c = '\n' || c = '\r'

/-- Drop leading JSON whitespace. -/
def skipJsonWs : List Char → List Char
  | [] => []
  | c :: cs => if isJsonWs c then skipJsonWs cs else c :: cs

/-- Decode one hexadecimal digit. -/
def parseHexDigit (c : Char) : Option Nat :=
  if '0' ≤ c ∧ c ≤ '9' then some (c.toNat - 48)
  else if 'a' ≤ c ∧ c ≤ 'f' then some (c.toNat - 87)
  else if 'A' ≤ c ∧ c ≤ 'F' then some (c.toNat - 55)
  else none

def hex4 (a b c d : Char) : Option Nat := do
  let x₁ ← parseHexDigit a
  let x₂ ← parseHexDigit b
  let x₃ ← parseHexDigit c
  let x₄ ← parseHexDigit d
  pure (((x₁ * 16 + x₂) * 16 + x₃) * 16 + x₄)

/-- Body of a JSON string literal, after the opening quote: returns the
decoded characters and the input after the closing quote.  Mirrors
`json.loads` in strict mode: raw control characters are rejected, the
standard escapes and `\uXXXX` (with surrogate pairing) are decoded.  The
fuel argument (one unit per produced character) keeps the recursion
structural; every call site supplies more fuel than the input length. -/
def parseStringBody : Nat → List Char → Option (List Char × List Char)
  | 0, _ => none
  | _, [] => none
  | fuel + 1, c :: rest =>
    if c = '"' then some ([], rest)
    else if c = '\\' then
      match rest with
      | 'u' :: a :: b :: d₁ :: d₂ :: rest₁ =>
        match hex4 a b d₁ d₂ with
        | none => none
        | some n =>
          if 0xD800 ≤ n ∧ n < 0xDC00 then
            -- possible surrogate pair
            match rest₁ with
            | '\\' :: 'u' :: a₂ :: b₂ :: d₃ :: d₄ :: rest₂ =>
              match hex4 a₂ b₂ d₃ d₄ with
              | none => none
              | some m =>
                if 0xDC00 ≤ m ∧ m < 0xE000 then
                  (parseStringBody fuel rest₂).map fun (s, r) =>
                    (Char.ofNat (0x10000 + (n - 0xD800) * 0x400 + (m - 0xDC00)) :: s, r)
                else
                  (parseStringBody fuel rest₂).map fun (s, r) =>
                    (Char.ofNat n :: Char.ofNat m :: s, r)
            | _ => (parseStringBody fuel rest₁).map fun (s, r) => (Char.ofNat n :: s, r)
          else (parseStringBody fuel rest₁).map fun (s, r) => (Char.ofNat n :: s, r)
      | e :: rest₁ =>
        if e = '"' then (parseStringBody fuel rest₁).map fun (s, r) => ('"' :: s, r)
        else if e = '\\' then (parseStringBody fuel rest₁).map fun (s, r) => ('\\' :: s, r)
        else if e = '/' then (parseStringBody fuel rest₁).map fun (s, r) => ('/' :: s, r)
        else if e = 'b' then (parseStringBody fuel rest₁).map fun (s, r) => (Char.ofNat 8 :: s, r)
        else if e = 'f' then (parseStringBody fuel rest₁).map fun (s, r) => (Char.ofNat 12 :: s, r)
        else if e = 'n' then (parseStringBody fuel rest₁).map fun (s, r) => ('\n' :: s, r)
        else if e = 'r' then (parseStringBody fuel rest₁).map fun (s, r) => ('\r' :: s, r)
        else if e = 't' then (parseStringBody fuel rest₁).map fun (s, r) => ('\t' :: s, r)
        else none
      | [] => none
    else if c.toNat < 32 then none
    else (parseStringBody fuel rest).map fun (s, r) => (c :: s, r)

/-- One run of decimal digits (at least one). -/
def parseDigits : List Char → Option (List Char × List Char)
  | c :: rest =>
    if c.isDigit then
      match parseDigits rest with
      | some (ds, r) => some (c :: ds, r)
      | none => some ([c], rest)
    else none
  | [] => none

def digitsVal (ds : List Char) : Nat :=
  ds.foldl (fun acc c => acc * 10 + (c.toNat - 48)) 0

/-- JSON number grammar (`-?int frac? exp?`, leading zeros rejected),
evaluated into `Rat`.  Python parses these to `int`/`float`; the claims never
inspect numeric values, so exact-rational arithmetic stands in for floats. -/
def parseNumber (cs : List Char) : Option (Json × List Char) :=
  let (neg, cs₁) := match cs with
    | '-' :: rest => (true, rest)
    | _ => (false, cs)
  match parseDigits cs₁ with
  | none => none
  | some (ints, cs₂) =>
    -- leading-zero check: "0" alone is fine, "0d..." is not
    if ints.length > 1 ∧ ints.head? = some '0' then none
    else
      let (fracDs, cs₃) := match cs₂ with
        | '.' :: rest =>
          match parseDigits rest with
          | some (ds, r) => (some ds, r)
          | none => (none, '.' :: rest)
        | _ => (some [], cs₂)
      match fracDs with
      | none => none
      | some fds =>
        let (expOk, expVal, cs₄) := match cs₃ with
          | 'e' :: rest | 'E' :: rest =>
            let (eneg, rest₁) := match rest with
              | '-' :: r => (true, r)
              | '+' :: r => (false, r)
              | _ => (false, rest)
            match parseDigits rest₁ with
            | some (ds, r) => (true, (if eneg then -(digitsVal ds : Int) else (digitsVal ds : Int)), r)
            | none => (false, 0, cs₃)
          | _ => (true, (0 : Int), cs₃)
        if ¬ expOk then none
        else
          let mantissa : Rat :=
            (digitsVal ints : Rat) + (digitsVal fds : Rat) / ((10 : Rat) ^ fds.length)
          let scaled : Rat := mantissa * (10 : Rat) ^ expVal
          some (.num (if neg then -scaled else scaled), cs₄)

/-- Parser modes for the single fuel-structural JSON core: a full value, the
elements of an array after `[` (at least one), or the members of an object
after `{` (at least one). -/
inductive PMode where
  | value
  | items
  | fields

inductive POut where
  | val (j : Json)
  | list (js : List Json)
  | flds (fs : List (String × Json))

/-- Core of the `json.loads` model.  Fuel-indexed so that the recursion is
structural and concrete inputs evaluate by `rfl`/`decide`; `jsonLoads` below
supplies fuel that is always sufficient. -/
def parseCore : Nat → PMode → List Char → Option (POut × List Char)
  | 0, _, _ => none
  | fuel + 1, .value, cs =>
    match skipJsonWs cs with
    | 'n' :: 'u' :: 'l' :: 'l' :: rest => some (.val .null, rest)
    | 't' :: 'r' :: 'u' :: 'e' :: rest => some (.val (.bool true), rest)
    | 'f' :: 'a' :: 'l' :: 's' :: 'e' :: rest => some (.val (.bool false), rest)
    | 'N' :: 'a' :: 'N' :: rest => some (.val .nan, rest)
    | 'I' :: 'n' :: 'f' :: 'i' :: 'n' :: 'i' :: 't' :: 'y' :: rest => some (.val (.inf false), rest)
    | '-' :: 'I' :: 'n' :: 'f' :: 'i' :: 'n' :: 'i' :: 't' :: 'y' :: rest => some (.val (.inf true), rest)
    | '"' :: rest =>
      match parseStringBody (rest.length + 1) rest with
      | some (s, r) => some (.val (.str (String.mk s)), r)
      | none => none
    | '[' :: rest =>
      match skipJsonWs rest with
      | ']' :: r => some (.val (.arr []), r)
      | _ =>
        match parseCore fuel .items rest with
        | some (.list js, r) => some (.val (.arr js), r)
        | _ => none
    | '{' :: rest =>
      match skipJsonWs rest with
      | '}' :: r => some (.val (.obj []), r)
      | _ =>
        match parseCore fuel .fields rest with
        | some (.flds fs, r) => some (.val (.obj fs), r)
        | _ => none
    | c :: rest =>
      if c = '-' ∨ c.isDigit then
        match parseNumber (c :: rest) with
        | some (j, r) => some (.val j, r)
        | none => none
      else none
    | [] => none
  | fuel + 1, .items, cs =>
    match parseCore fuel .value cs with
    | some (.val j, r) =>
      match skipJsonWs r with
      | ',' :: r₂ =>
        match parseCore fuel .items r₂ with
        | some (.list js, r₃) => some (.list (j :: js), r₃)
        | _ => none
      | ']' :: r₂ => some (.list [j], r₂)
      | _ => none
    | _ => none
  | fuel + 1, .fields, cs =>
    match skipJsonWs cs with
    | '"' :: r =>
      match parseStringBody (r.length + 1) r with
      | some (k, r₂) =>
        match skipJsonWs r₂ with
        | ':' :: r₃ =>
          match parseCore fuel .value r₃ with
          | some (.val v, r₄) =>
            match skipJsonWs r₄ with
            | ',' :: r₅ =>
              match parseCore fuel .fields r₅ with
              | some (.flds fs, r₆) => some (.flds ((String.mk k, v) :: fs), r₆)
              | _ => none
            | '}' :: r₅ => some (.flds [(String.mk k, v)], r₅)
            | _ => none
          | _ => none
        | _ => none
      | none => none
    | _ => none

/-- Model of `json.loads`: parse one JSON document, allowing surrounding
whitespace, rejecting trailing garbage.  `none` models a raised
`json.JSONDecodeError`. -/
def jsonLoads (s : String) : Option Json :=
  match parseCore (s.data.length + 1) .value s.data with
  | some (.val j, rest) =>
    match skipJsonWs rest with
    | [] => some j
    | _ => none
  | _ => none

/-! ## Model of `re.search(r"```json\s*(\{.*\})\s*```", content, re.DOTALL)`

`re.search` returns the match at the earliest start position; at that
position `\s*` greedily eats whitespace (backtracking cannot help, since
a backtick is not whitespace), `\{` must match immediately, and the greedy
`.*` (DOTALL) selects the **last** `}` that is followed by whitespace and
three backticks.  `searchFence` returns capture group 1. -/

/-- `\s` for the fence pattern (ASCII part; the claims only exercise `\n`). -/
def isReWs (c : Char) : Bool :=
  isJsonWs c || c = Char.ofNat 11 || c = Char.ofNat 12

def skipReWs : List Char → List Char
  | [] => []
  | c :: cs => if isReWs c then skipReWs cs else c :: cs

/-- Does `\s*```` ``` ```` match at this point? -/
def fenceAfter (cs : List Char) : Bool :=
  (skipReWs cs).take 3 == "```".data

/-- Split at the last `}` whose suffix satisfies `fenceAfter`: returns the
characters before that `}` and the characters after it. -/
def splitAtLastClose : List Char → Option (List Char × List Char)
  | [] => none
  | c :: rest =>
    match splitAtLastClose rest with
    | some (pre, suf) => some (c :: pre, suf)
    | none => if c = '}' && fenceAfter rest then some ([], rest) else none

/-- Attempt the tail of the pattern right after a `` ```json `` tag. -/
def tryFenceAt (cs : List Char) : Option (List Char) :=
  match skipReWs cs with
  | '{' :: body =>
    match splitAtLastClose body with
    | some (pre, _) => some ('{' :: pre ++ ['}'])
    | none => none
  | _ => none

def fenceTag : List Char := "```json".data

/-- Scan for the first position where the whole pattern matches; yield the
capture group. -/
def searchFence : List Char → Option (List Char)
  | [] => none
  | c :: rest =>
    if (c :: rest).take 7 = fenceTag then
      match tryFenceAt ((c :: rest).drop 7) with
      | some g => some g
      | none => searchFence rest
    else searchFence rest

/-- The response-parsing logic of `generate_rednote` lines 306–326: extract a
`` ```json {...}``` `` block and deserialize it; only when no such block
exists, deserialize the whole text.  `none` models both failure paths, after
which the loop appends the assistant text and continues. -/
def parseResponse (content : String) : Option Json :=
  match searchFence content.data with
  | some g => jsonLoads (String.mk g)
  | none => jsonLoads content

/-! ## The mock tools (`rednote.py` §3.3)

`time.sleep` and `print` are effect-free for the claims and are dropped.
The process-wide RNG consumed by `random.sample` is made explicit: a
`sample` function (population → k → selection) threads through
`mock_generate_emoji`. -/

/-- Contiguous-sublist test. -/
def infixOfL (sub : List Char) : List Char → Bool
  | [] => sub.isEmpty
  | c :: rest => sub.isPrefixOf (c :: rest) || infixOfL sub rest

/-- `sub in s` for Python strings. -/
def hasSub (sub s : String) : Bool := infixOfL sub.data s.data

def mock_search_web (query : String) : String :=
  if hasSub "小红书美妆趋势" query then
    "近期小红书美妆流行" ++ squote ++ "多巴胺穿搭" ++ squote ++ "、" ++ squote ++ "早C晚A"
      ++ squote ++ "护肤理念、" ++ squote ++ "伪素颜" ++ squote
      ++ "妆容，热门关键词有#氛围感、#抗老、#屏障修复。"
  else if hasSub "保湿面膜" query then
    "小红书保湿面膜热门话题：沙漠干皮救星、熬夜急救面膜、水光肌养成。用户痛点：卡粉、泛红、紧绷感。"
  else if hasSub "深海蓝藻保湿面膜" query then
    "关于深海蓝藻保湿面膜的用户评价：普遍反馈补水效果好，吸收快，对敏感肌友好。有用户提到价格略高，但效果值得。"
  else
    "未找到关于 " ++ squote ++ query ++ squote ++ " 的特定信息，但市场反馈通常关注产品成分、功效和用户体验。"

def mock_query_product_database (product_name : String) : String :=
  if hasSub "深海蓝藻保湿面膜" product_name then
    "深海蓝藻保湿面膜：核心成分为深海蓝藻提取物，富含多糖和氨基酸，能深层补水、修护肌肤屏障、舒缓敏感泛红。质地清爽不粘腻，适合所有肤质，尤其适合干燥、敏感肌。规格：25ml*5片。"
  else if hasSub "美白精华" product_name then
    "美白精华：核心成分是烟酰胺和VC衍生物，主要功效是提亮肤色、淡化痘印、改善暗沉。质地轻薄易吸收，适合需要均匀肤色的人群。"
  else
    "产品数据库中未找到关于 " ++ squote ++ product_name ++ squote ++ " 的详细信息。"

/-- Python `str.split()` with no separator: split on whitespace runs. -/
def isPySplitWs (c : Char) : Bool := isReWs c

def pySplitAux : List Char → List Char → List String
  | [], [] => []
  | [], cur => [String.mk cur.reverse]
  | c :: cs, cur =>
    if isPySplitWs c then
      match cur with
      | [] => pySplitAux cs []
      | _ => String.mk cur.reverse :: pySplitAux cs []
    else pySplitAux cs (c :: cur)

def pySplit (s : String) : List String := pySplitAux s.data []

def emojiPool : List String := ["✨", "🔥", "💖", "💯", "🎉", "👍", "🤩", "💧", "🌿"]

/-- `mock_generate_emoji`, with `random.sample` abstracted as the explicit
`sample` argument (population, k ↦ chosen elements).  The first four
branches never consult the RNG; the final branch does. -/
def mock_generate_emoji (sample : List String → Nat → List String)
    (context : String) : List String :=
  if hasSub "补水" context || hasSub "水润" context || hasSub "保湿" context then
    ["💦", "💧", "🌊", "✨"]
  else if hasSub "惊喜" context || hasSub "哇塞" context || hasSub "爱了" context then
    ["💖", "😍", "🤩", "💯"]
  else if hasSub "熬夜" context || hasSub "疲惫" context then
    ["😭", "😮‍💨", "😴", "💡"]
  else if hasSub "好物" context || hasSub "推荐" context then
    ["✅", "👍", "⭐", "🛍️"]
  else
    sample emojiPool (min 5 (pySplit context).length)

/-! ## Tool dispatch (`generate_rednote` lines 269–299) -/

/-- Python exceptions that the per-iteration `except Exception` can catch. -/
inductive PyError where
  | jsonDecodeError
  | typeError
  | attributeError
deriving DecidableEq, Repr

/-- A handler result before `str(...)`: the mocks return a `str` or a
`list` of `str`. -/
inductive PyVal where
  | str (s : String)
  | list (l : List String)
deriving DecidableEq, Repr

/-- Python `repr` of a plain string as it appears inside `str(list)`;
double quotes are chosen exactly when the string contains a single quote
and no double quote (control-character escaping is not modelled — no
handler output contains control characters). -/
def pyReprStr (s : String) : String :=
  if s.data.contains (Char.ofNat 39) && !s.data.contains '"' then
    "\"" ++ s ++ "\""
  else
    squote ++ String.mk ((s.data.map fun c =>
      if c = '\\' then ['\\', '\\']
      else if c = Char.ofNat 39 then ['\\', Char.ofNat 39]
      else [c]).flatten) ++ squote

/-- `str(tool_result)` at line 289. -/
def pyStrOfVal : PyVal → String
  | .str s => s
  | .list l => "[" ++ String.intercalate ", " (l.map pyReprStr) ++ "]"

/-- Line 277: `json.loads(tool_call.function.arguments) if tool_call.function.arguments else {}`.
An empty arguments string is falsy and yields `{}`; otherwise a failed
deserialization raises `json.JSONDecodeError`. -/
def parseArgs (arguments : String) : Except PyError Json :=
  if arguments = "" then .ok (.obj [])
  else
    match jsonLoads arguments with
    | some j => .ok j
    | none => .error .jsonDecodeError

/-- One `dict` insertion: Python keeps the first occurrence's position and
replaces the value on a repeated key. -/
def pyDictInsert (d : List (String × Json)) (k : String) (v : Json) :
    List (String × Json) :=
  if d.any (fun p => p.1 == k) then
    d.map (fun p => if p.1 == k then (p.1, v) else p)
  else d ++ [(k, v)]

/-- Rebuild the `dict` that `json.loads` produces from the fields in parse
order: keys are inserted left to right, so the first occurrence of a key
fixes its position and the last occurrence supplies its value —
`json.loads` of a record with `"a":1` then `"a":2` yields a dict mapping
`a` to `2`. -/
def pyDict (fields : List (String × Json)) : List (String × Json) :=
  fields.foldl (fun d p => pyDictInsert d p.1 p.2) []

/-- Decimal form of an integer `Rat`; the fallback form for non-integers is
never exercised (Python would print float notation there). -/
def numLit (q : Rat) : String :=
  if q.den = 1 then toString q.num else toString q.num ++ "/" ++ toString q.den

mutual
/-- `str(x)` for a decoded JSON value (the f-string conversions). -/
def pyStrJson : Json → String
  | .str s => s
  | .null => "None"
  | .bool b => if b then "True" else "False"
  | .num q => numLit q
  | .nan => "nan"
  | .inf neg => if neg then "-inf" else "inf"
  | .arr l => "[" ++ pyReprList l ++ "]"
  | .obj fs => "\x7b" ++ pyReprFields fs ++ "\x7d"

/-- `repr(x)` as it appears inside `str` of a container. -/
def pyReprJson : Json → String
  | .str s => pyReprStr s
  | .null => "None"
  | .bool b => if b then "True" else "False"
  | .num q => numLit q
  | .nan => "nan"
  | .inf neg => if neg then "-inf" else "inf"
  | .arr l => "[" ++ pyReprList l ++ "]"
  | .obj fs => "\x7b" ++ pyReprFields fs ++ "\x7d"

def pyReprList : List Json → String
  | [] => ""
  | [j] => pyReprJson j
  | j :: js => pyReprJson j ++ ", " ++ pyReprList js

def pyReprFields : List (String × Json) → String
  | [] => ""
  | [(k, v)] => pyReprStr k ++ ": " ++ pyReprJson v
  | (k, v) :: fs => pyReprStr k ++ ": " ++ pyReprJson v ++ ", " ++ pyReprFields fs
end

/-- Does a decoded value equal the given Python `str`?  Only an equal
string does; Python equality between a `str` and any non-`str` JSON value
is `False`. -/
def jsonEqStr : Json → String → Bool
  | .str t, s => t == s
  | _, _ => false

/-- Python `sub in v` for a deserialized value: substring test on a `str`,
element-equality membership on a `list`, key membership on a `dict`;
numbers, booleans and `null` are not containers, so `in` raises
`TypeError`. -/
def pyIn (sub : String) (v : Json) : Except PyError Bool :=
  match v with
  | .str s => .ok (hasSub sub s)
  | .arr l => .ok (l.any (fun e => jsonEqStr e sub))
  | .obj fs => .ok (fs.any (fun p => p.1 == sub))
  | _ => .error .typeError

/-- Python short-circuit `or` over fallible `in` tests. -/
def pyOr (x y : Except PyError Bool) : Except PyError Bool :=
  match x with
  | .ok true => .ok true
  | .ok false => y
  | .error e => .error e

/-- `mock_search_web` as it executes when dispatched with an arbitrary
bound value: each `in` test follows Python semantics for the value's type
(so e.g. a list value reaches a branch only when it has an element equal to
the keyword, and a number raises `TypeError`), and the else branch
interpolates `str(query)`. -/
def mock_search_web_py (query : Json) : Except PyError String := do
  if ← pyIn "小红书美妆趋势" query then
    pure ("近期小红书美妆流行" ++ squote ++ "多巴胺穿搭" ++ squote ++ "、" ++ squote ++ "早C晚A"
      ++ squote ++ "护肤理念、" ++ squote ++ "伪素颜" ++ squote
      ++ "妆容，热门关键词有#氛围感、#抗老、#屏障修复。")
  else if ← pyIn "保湿面膜" query then
    pure "小红书保湿面膜热门话题：沙漠干皮救星、熬夜急救面膜、水光肌养成。用户痛点：卡粉、泛红、紧绷感。"
  else if ← pyIn "深海蓝藻保湿面膜" query then
    pure "关于深海蓝藻保湿面膜的用户评价：普遍反馈补水效果好，吸收快，对敏感肌友好。有用户提到价格略高，但效果值得。"
  else
    pure ("未找到关于 " ++ squote ++ pyStrJson query ++ squote
      ++ " 的特定信息，但市场反馈通常关注产品成分、功效和用户体验。")

/-- `mock_query_product_database` as dispatched with an arbitrary bound
value. -/
def mock_query_product_database_py (product_name : Json) : Except PyError String := do
  if ← pyIn "深海蓝藻保湿面膜" product_name then
    pure "深海蓝藻保湿面膜：核心成分为深海蓝藻提取物，富含多糖和氨基酸，能深层补水、修护肌肤屏障、舒缓敏感泛红。质地清爽不粘腻，适合所有肤质，尤其适合干燥、敏感肌。规格：25ml*5片。"
  else if ← pyIn "美白精华" product_name then
    pure "美白精华：核心成分是烟酰胺和VC衍生物，主要功效是提亮肤色、淡化痘印、改善暗沉。质地轻薄易吸收，适合需要均匀肤色的人群。"
  else
    pure ("产品数据库中未找到关于 " ++ squote ++ pyStrJson product_name ++ squote ++ " 的详细信息。")

/-- `mock_generate_emoji` as dispatched with an arbitrary bound value: the
keyword `or`-chains short-circuit like Python; only a `str` has
`.split()`, so the RNG fallback raises `AttributeError` on any other
type. -/
def mock_generate_emoji_py (sample : List String → Nat → List String)
    (context : Json) : Except PyError (List String) := do
  if ← pyOr (pyIn "补水" context) (pyOr (pyIn "水润" context) (pyIn "保湿" context)) then
    pure ["💦", "💧", "🌊", "✨"]
  else if ← pyOr (pyIn "惊喜" context) (pyOr (pyIn "哇塞" context) (pyIn "爱了" context)) then
    pure ["💖", "😍", "🤩", "💯"]
  else if ← pyOr (pyIn "熬夜" context) (pyIn "疲惫" context) then
    pure ["😭", "😮‍💨", "😴", "💡"]
  else if ← pyOr (pyIn "好物" context) (pyIn "推荐" context) then
    pure ["✅", "👍", "⭐", "🛍️"]
  else
    match context with
    | .str s => pure (sample emojiPool (min 5 (pySplit s).length))
    | _ => .error .attributeError

/-- Binding `f(**function_args)` for a handler with a single required
parameter: the arguments must be a mapping (after `json.loads`, always a
dict with string keys) binding exactly that parameter — a missing or
unexpected keyword raises `TypeError`.  The bound value itself may be of
any type; what the handler body then does with it is the body's
business. -/
def bindArg (key : String) (args : Json) : Except PyError Json :=
  match args with
  | .obj fields =>
    match pyDict fields with
    | [(k, v)] => if k = key then .ok v else .error .typeError
    | _ => .error .typeError
  | _ => .error .typeError

def toolNames : List String := ["search_web", "query_product_database", "generate_emoji"]

/-- `available_tools[function_name](**function_args)`: bind the keyword
argument, then run the handler body.  Only called for registered names. -/
def callTool (sample : List String → Nat → List String)
    (name : String) (args : Json) : Except PyError PyVal :=
  if name = "search_web" then do
    let q ← bindArg "query" args
    let r ← mock_search_web_py q
    pure (.str r)
  else if name = "query_product_database" then do
    let p ← bindArg "product_name" args
    let r ← mock_query_product_database_py p
    pure (.str r)
  else do
    let c ← bindArg "context" args
    let r ← mock_generate_emoji_py sample c
    pure (.list r)

/-- One `tool_call` of an assistant reply: `tool_call.id`,
`tool_call.function.name`, `tool_call.function.arguments`. -/
structure ToolCall where
  id : String
  name : String
  arguments : String
deriving DecidableEq, Repr

/-- The shape of `response.choices[0].message`. -/
structure RespMsg where
  tool_calls : List ToolCall
  content : Option String
deriving DecidableEq, Repr

/-- One remote model invocation: either the call raises (network/auth/...)
or it returns a message. -/
inductive ModelOutcome where
  | fault
  | reply (m : RespMsg)

/-- One entry of the `messages` list. -/
inductive Msg where
  | system (content : String)
  | user (content : String)
  | assistant (content : Option String) (tool_calls : List ToolCall)
  | tool (tool_call_id : String) (content : String)
deriving DecidableEq, Repr

def unknownToolText (name : String) : String :=
  "错误：未知的工具 " ++ squote ++ name ++ squote

/-- Lines 274–298, one `tool_call`: deserialize the arguments (may raise),
then either dispatch to the registered handler (whose failure also raises)
or synthesize the unknown-tool error text. -/
def toolContent (sample : List String → Nat → List String)
    (tc : ToolCall) : Except PyError String :=
  match parseArgs tc.arguments with
  | .error e => .error e
  | .ok args =>
    if toolNames.contains tc.name then
      (callTool sample tc.name args).map pyStrOfVal
    else .ok (unknownToolText tc.name)

/-- The `for tool_call in response_message.tool_calls` loop building
`tool_outputs`; an exception at any request aborts the whole batch and the
accumulated outputs are discarded. -/
def runBatch (sample : List String → Nat → List String) :
    List ToolCall → Except PyError (List Msg)
  | [] => .ok []
  | tc :: rest =>
    match toolContent sample tc with
    | .error e => .error e
    | .ok content =>
      match runBatch sample rest with
      | .error e => .error e
      | .ok outs => .ok (Msg.tool tc.id content :: outs)

/-- Lines 269–299 as one unit: append the assistant message, resolve every
request of the batch, then extend the state with all tool outputs at once. -/
def handleToolCalls (sample : List String → Nat → List String)
    (msgs : List Msg) (rm : RespMsg) : Except PyError (List Msg) :=
  match runBatch sample rm.tool_calls with
  | .ok outs => .ok (msgs ++ Msg.assistant rm.content rm.tool_calls :: outs)
  | .error e => .error e

/-! ## The agent loop `generate_rednote` (lines 228–337) -/

def SYSTEM_PROMPT : String :=
  "\n你是一个资深的小红书爆款文案专家，擅长结合最新潮流和产品卖点，创作引人入胜、高互动、高转化的笔记文案。\n\n你的任务是根据用户提供的产品和需求，生成包含标题、正文、相关标签和表情符号的完整小红书笔记。\n\n请始终采用" ++ squote ++ "Thought-Action-Observation" ++ squote
  ++ "模式进行推理和行动。文案风格需活泼、真诚、富有感染力。当完成任务后，请以JSON格式直接输出最终文案，格式如下：\n```json\n\x7b\n  \"title\": \"小红书标题\",\n  \"body\": \"小红书正文\",\n  \"hashtags\": [\"#标签1\", \"#标签2\", \"#标签3\", \"#标签4\", \"#标签5\"],\n  \"emojis\": [\"✨\", \"🔥\", \"💖\"]\n\x7d\n```\n在生成文案前，请务必先思考并收集足够的信息。\n"

def userPrompt (product_name tone_style : String) : String :=
  "请为产品「" ++ product_name ++ "」生成一篇小红书爆款文案。要求：语气" ++ tone_style
  ++ "，包含标题、正文、至少5个相关标签和5个表情符号。请以完整的JSON格式输出，并确保JSON内容用markdown代码块包裹（例如：```json\x7b...\x7d```）。"

def initMsgs (product_name tone_style : String) : List Msg :=
  [Msg.system SYSTEM_PROMPT, Msg.user (userPrompt product_name tone_style)]

/-- The single string returned on every artifact-less exit (line 337). -/
def failText : String := "未能成功生成文案。"

/-- How a run of `generate_rednote` ends: the returned string is either the
pretty-printed artifact (line 313/323) or the failure text (line 337). -/
inductive RunResult where
  | artifact (s : String)
  | failure (s : String)
deriving DecidableEq, Repr

def hexDig (n : Nat) : Char :=
  if n < 10 then Char.ofNat (48 + n) else Char.ofNat (87 + n)

/-- The characters `json.dumps(..., ensure_ascii=False)` emits for one
character of a string value. -/
def escChar (c : Char) : List Char :=
  if c = '"' then ['\\', '"']
  else if c = '\\' then ['\\', '\\']
  else if c = '\n' then ['\\', 'n']
  else if c = '\t' then ['\\', 't']
  else if c = '\r' then ['\\', 'r']
  else if c.toNat = 8 then ['\\', 'b']
  else if c.toNat = 12 then ['\\', 'f']
  else if c.toNat < 32 then ['\\', 'u', '0', '0', hexDig (c.toNat / 16), hexDig (c.toNat % 16)]
  else [c]

def escapeList (s : List Char) : List Char := (s.map escChar).flatten

def quoteJson (s : String) : String := "\"" ++ String.mk (escapeList s.data) ++ "\""

def indentPad (lvl : Nat) : String := String.mk (List.replicate (2 * lvl) ' ')

mutual
/-- `json.dumps(x, ensure_ascii=False, indent=2)` (lines 313/323). -/
def dumpsPrettyV : Json → Nat → String
  | .null, _ => "null"
  | .bool b, _ => if b then "true" else "false"
  | .num q, _ => numLit q
  | .nan, _ => "NaN"
  | .inf neg, _ => if neg then "-Infinity" else "Infinity"
  | .str s, _ => quoteJson s
  | .arr [], _ => "[]"
  | .arr (j :: js), lvl => "[\n" ++ dumpsPrettyArr (j :: js) (lvl + 1) ++ "\n" ++ indentPad lvl ++ "]"
  | .obj [], _ => "\x7b\x7d"
  | .obj (f :: fs), lvl => "\x7b\n" ++ dumpsPrettyObj (f :: fs) (lvl + 1) ++ "\n" ++ indentPad lvl ++ "\x7d"

def dumpsPrettyArr : List Json → Nat → String
  | [], _ => ""
  | [j], lvl => indentPad lvl ++ dumpsPrettyV j lvl
  | j :: js, lvl => indentPad lvl ++ dumpsPrettyV j lvl ++ ",\n" ++ dumpsPrettyArr js lvl

def dumpsPrettyObj : List (String × Json) → Nat → String
  | [], _ => ""
  | [(k, v)], lvl => indentPad lvl ++ quoteJson k ++ ": " ++ dumpsPrettyV v lvl
  | (k, v) :: fs, lvl => indentPad lvl ++ quoteJson k ++ ": " ++ dumpsPrettyV v lvl ++ ",\n" ++ dumpsPrettyObj fs lvl
end

def json_dumps_pretty (j : Json) : String := dumpsPrettyV j 0

/-- Everything a finished run exposes, plus the instrumentation the claims
talk about: number of completed model invocations, number of evaluations of
the `while iteration_count < max_iterations` condition, and the final
`messages` list. -/
structure RunOutcome where
  result : RunResult
  calls : Nat
  attempts : Nat
  messages : List Msg
deriving DecidableEq, Repr

/-- The `while` loop of `generate_rednote`, with `remaining` standing for
`max_iterations - iteration_count` (the loop entry condition
`iteration_count < max_iterations` is exactly `remaining > 0`).  `oracle n`
is the outcome of the `n`-th `client.chat.completions.create` call.  Every
`break`/`return` path of the source is reproduced, including the paths where
the per-iteration `except Exception` (line 332) catches an exception raised
by `json.loads` of tool arguments or by a tool handler, breaking the loop. -/
def runAux (oracle : Nat → ModelOutcome) (sample : List String → Nat → List String) :
    Nat → List Msg → Nat → Nat → RunOutcome
  | 0, msgs, calls, attempts =>
    -- condition check fails: fall through to the final return (line 337)
    ⟨.failure failText, calls, attempts + 1, msgs⟩
  | remaining + 1, msgs, calls, attempts =>
    -- condition check succeeds: one more round
    match oracle calls with
    | .fault =>
      -- the API call raised: caught at line 332, break, final return
      ⟨.failure failText, calls + 1, attempts + 1, msgs⟩
    | .reply rm =>
      if rm.tool_calls ≠ [] then
        -- line 271: messages.append(response_message) happens before the batch
        let msgs₁ := msgs ++ [Msg.assistant rm.content rm.tool_calls]
        match runBatch sample rm.tool_calls with
        | .ok outs => runAux oracle sample remaining (msgs₁ ++ outs) (calls + 1) (attempts + 1)
        | .error _ =>
          -- exception inside the batch: caught at line 332, break
          ⟨.failure failText, calls + 1, attempts + 1, msgs₁⟩
      else if (rm.content.getD "") ≠ "" then
        match parseResponse (rm.content.getD "") with
        | some j =>
          -- line 313/323: return json.dumps(final_response, ...)
          ⟨.artifact (json_dumps_pretty j), calls + 1, attempts + 1, msgs⟩
        | none =>
          -- parse failure: append the assistant text, continue
          runAux oracle sample remaining
            (msgs ++ [Msg.assistant rm.content rm.tool_calls]) (calls + 1) (attempts + 1)
      else
        -- line 330: neither tool calls nor content, break
        ⟨.failure failText, calls + 1, attempts + 1, msgs⟩

/-- `generate_rednote(client, product_name, tone_style, max_iterations)`,
with the client abstracted as the oracle and the RNG as `sample`. -/
def generate_rednote (oracle : Nat → ModelOutcome) (sample : List String → Nat → List String)
    (product_name : String) (tone_style : String) (max_iterations : Nat) : RunOutcome :=
  runAux oracle sample max_iterations (initMsgs product_name tone_style) 0 0

/-! ## `format_rednote_for_markdown` (lines 344–382) -/

/-- Python truthiness of a decoded JSON value. -/
def pyTruthy : Json → Bool
  | .null => false
  | .bool b => b
  | .num q => q ≠ 0
  | .nan => true
  | .inf _ => true
  | .str s => s ≠ ""
  | .arr l => !l.isEmpty
  | .obj fs => !fs.isEmpty

/-- Elements handed to `join` must all be `str`, else `TypeError`. -/
def joinStrs : List Json → Except PyError (List String)
  | [] => .ok []
  | .str s :: rest => (joinStrs rest).map (s :: ·)
  | _ :: _ => .error .typeError

/-- `" ".join(x)`: a list joins its elements (each must be a `str`); a
string joins its characters; a dict joins its keys, which after
`json.loads` are always strings; anything else is not iterable and raises
`TypeError`. -/
def pyJoinSpace : Json → Except PyError String
  | .arr l => (joinStrs l).map (String.intercalate " ")
  | .str s => .ok (String.intercalate " " (s.data.map String.singleton))
  | .obj fs => .ok (String.intercalate " " ((pyDict fs).map (fun p => p.1)))
  | _ => .error .typeError

def isPyStripWs (c : Char) : Bool := isReWs c

/-- Python `str.strip()` (ASCII whitespace suffices here). -/
def pyStrip (s : String) : String :=
  String.mk (((s.data.dropWhile isPyStripWs).reverse.dropWhile isPyStripWs).reverse)

/-- The error message of line 358, with the interpolated
`json.JSONDecodeError` text abstracted as a fixed token. -/
def jsonErrHeader : String :=
  "错误：无法解析 JSON 字符串 - JSONDecodeError\n原始字符串：\n"

/-- `format_rednote_for_markdown`: parse failure is caught and reported as a
string (line 358); on success the markdown is assembled from `data.get`
lookups.  A decoded non-`dict` value makes `data.get` raise
`AttributeError`, and non-string hashtag content makes `join` raise
`TypeError` — both surface as `.error` since line 355's `try` only catches
`json.JSONDecodeError`. -/
def format_rednote_for_markdown (json_string : String) : Except PyError String :=
  match jsonLoads json_string with
  | none => .ok (jsonErrHeader ++ json_string)
  | some data =>
    match data with
    | .obj rawFields =>
      let d := pyDict rawFields
      let title := (d.lookup "title").getD (.str "无标题")
      let body := (d.lookup "body").getD (.str "")
      let hashtags := (d.lookup "hashtags").getD (.arr [])
      let md := "## " ++ pyStrJson title ++ "\n\n" ++ pyStrJson body ++ "\n\n"
      if pyTruthy hashtags then
        match pyJoinSpace hashtags with
        | .ok hs => .ok (pyStrip (md ++ hs ++ "\n"))
        | .error e => .error e
      else .ok (pyStrip md)
    | _ => .error .attributeError

/-! ## The GeneratedArtifact record and its fenced serialization

The serializer is modelled from the spec: "serializing a GeneratedArtifact
into a fenced block" (§8).  The program itself never serializes an artifact
into a fence — the remote model does, following the system prompt — so the
spec's words fix the format: a standard JSON encoding of the four fields
wrapped in a `` ```json ``/`` ``` `` fence. -/

structure Artifact where
  title : String
  body : String
  hashtags : List String
  emojis : List String

/-- A JSON string literal for `s`. -/
def strLitL (s : String) : List Char := '"' :: escapeList s.data ++ ['"']

def qListInner : List String → List Char
  | [] => []
  | [s] => strLitL s
  | s :: rest => strLitL s ++ ',' :: qListInner rest

def qListL (l : List String) : List Char := '[' :: qListInner l ++ [']']

/-- Modelled from the spec: the JSON text of a GeneratedArtifact. -/
def dumpsArtifactL (a : Artifact) : List Char :=
  '{' :: ("\"title\":".data ++ strLitL a.title
    ++ ",\"body\":".data ++ strLitL a.body
    ++ ",\"hashtags\":".data ++ qListL a.hashtags
    ++ ",\"emojis\":".data ++ qListL a.emojis) ++ ['}']

def dumpsArtifact (a : Artifact) : String := String.mk (dumpsArtifactL a)

/-- Modelled from the spec: wrapping a payload in the fenced block the
system prompt requests. -/
def fencedBlock (payload : String) : String := "```json\n" ++ payload ++ "\n```"

/-- The decoded JSON value a round-tripped Artifact must come back as. -/
def artifactJson (a : Artifact) : Json :=
  .obj [("title", .str a.title), ("body", .str a.body),
    ("hashtags", .arr (a.hashtags.map .str)), ("emojis", .arr (a.emojis.map .str))]

/-! ## Concrete oracles, samplers and batches used as evidence -/

/-- A possible behaviour of `random.sample`: pick the first `k` elements. -/
def sampleTake : List String → Nat → List String := fun l k => l.take k

/-- Another possible behaviour of `random.sample`: pick the last `k`
elements, reversed. -/
def sampleRev : List String → Nat → List String := fun l k => l.reverse.take k

/-- A model that always requests `search_web` with undeserializable
arguments. -/
def oracleBadArgs : Nat → ModelOutcome := fun _ =>
  .reply ⟨[⟨"call_1", "search_web", "not json"⟩], none⟩

/-- A model that always requests `search_web` with valid-JSON arguments
that the handler's signature rejects (no `query` parameter). -/
def oracleBadBind : Nat → ModelOutcome := fun _ =>
  .reply ⟨[⟨"call_1", "search_web", "\x7b\x7d"⟩], none⟩

/-- A model that always replies with unparseable prose. -/
def oracleThink : Nat → ModelOutcome := fun _ => .reply ⟨[], some "还在思考"⟩

/-- A model whose invocation always raises. -/
def oracleFault : Nat → ModelOutcome := fun _ => .fault

/-! ## Loop invariants -/

/-- Any artifact-less exit of the loop carries the one fixed failure
string of line 337. -/
theorem runAux_result_shape (oracle : Nat → ModelOutcome)
    (sample : List String → Nat → List String) :
    ∀ remaining msgs calls attempts,
      (∃ s, (runAux oracle sample remaining msgs calls attempts).result = .artifact s) ∨
      (runAux oracle sample remaining msgs calls attempts).result = .failure failText := by
  intro remaining
  induction remaining with
  | zero => intro msgs calls attempts; right; rfl
  | succ n ih =>
    intro msgs calls attempts
    simp only [runAux]
    split
    · right; rfl
    · split
      · split
        · exact ih _ _ _
        · right; rfl
      · split
        · split
          · left; exact ⟨_, rfl⟩
          · exact ih _ _ _
        · right; rfl

/-- The loop makes at most `remaining` further model calls and evaluates the
loop condition at most `remaining + 1` further times. -/
theorem runAux_bounds (oracle : Nat → ModelOutcome)
    (sample : List String → Nat → List String) :
    ∀ remaining msgs calls attempts,
      (runAux oracle sample remaining msgs calls attempts).calls ≤ calls + remaining ∧
      (runAux oracle sample remaining msgs calls attempts).attempts ≤ attempts + remaining + 1 := by
  intro remaining
  induction remaining with
  | zero => intro msgs calls attempts; exact ⟨Nat.le_refl _, Nat.le_refl _⟩
  | succ n ih =>
    intro msgs calls attempts
    simp only [runAux]
    split
    · exact ⟨by dsimp only; omega, by dsimp only; omega⟩
    · split
      · split
        · next outs _ =>
            exact ⟨Nat.le_trans (ih _ _ _).1 (by omega), Nat.le_trans (ih _ _ _).2 (by omega)⟩
        · exact ⟨by dsimp only; omega, by dsimp only; omega⟩
      · split
        · split
          · exact ⟨by dsimp only; omega, by dsimp only; omega⟩
          · next =>
              exact ⟨Nat.le_trans (ih _ _ _).1 (by omega), Nat.le_trans (ih _ _ _).2 (by omega)⟩
        · exact ⟨by dsimp only; omega, by dsimp only; omega⟩

/-- C4: the agent loop performs at most `max_iterations` model invocations,
and at most `max_iterations + 1` evaluations of the loop condition
(including the final, failing check before the EXHAUSTED exit). -/
theorem claim_C4 (oracle : Nat → ModelOutcome) (sample : List String → Nat → List String)
    (product_name tone_style : String) (max_iterations : Nat) :
    (generate_rednote oracle sample product_name tone_style max_iterations).calls ≤ max_iterations ∧
    (generate_rednote oracle sample product_name tone_style max_iterations).attempts ≤ max_iterations + 1 := by
  have h := runAux_bounds oracle sample max_iterations (initMsgs product_name tone_style) 0 0
  unfold generate_rednote
  omega

/-- C3 counterexample: a run that exhausts its budget (the model keeps
sending unparseable prose for all 2 allowed rounds) and a run whose very
first model invocation raises a transport fault return **equal** results —
both are `failure "未能成功生成文案。"` — so the caller cannot distinguish
budget exhaustion from a transport fault, contrary to the claim. -/
theorem claim_C3_counterexample :
    (generate_rednote oracleThink sampleTake "深海蓝藻保湿面膜" "活泼甜美" 2).result =
      (generate_rednote oracleFault sampleTake "深海蓝藻保湿面膜" "活泼甜美" 2).result := by
  rfl

/-- C3 amended: `generate_rednote` has exactly one failure value — every run
either returns an artifact or returns the single fixed string
`未能成功生成文案。`, whichever of budget exhaustion, transport fault,
tool-argument error, handler error or an empty reply ended it; callers
cannot tell these apart from the returned value. -/
theorem claim_C3 (oracle : Nat → ModelOutcome) (sample : List String → Nat → List String)
    (product_name tone_style : String) (max_iterations : Nat) :
    (∃ s, (generate_rednote oracle sample product_name tone_style max_iterations).result = .artifact s) ∨
    (generate_rednote oracle sample product_name tone_style max_iterations).result = .failure failText :=
  runAux_result_shape oracle sample max_iterations (initMsgs product_name tone_style) 0 0

/-- C7 counterexample: with context `"a b"` none of the keyword branches
fires and `mock_generate_emoji` falls through to `random.sample`; two
possible draws of the RNG (both realizable selections of 2 elements from
the 9-element pool) give different results for equal arguments, so the
handler is not a pure function of its arguments. -/
theorem claim_C7_counterexample :
    mock_generate_emoji sampleTake "a b" ≠ mock_generate_emoji sampleRev "a b" := by
  decide

/-- The disjunction of the four keyword tests of `mock_generate_emoji`. -/
def emojiKeywordHit (context : String) : Bool :=
  (hasSub "补水" context || hasSub "水润" context || hasSub "保湿" context) ||
  (hasSub "惊喜" context || hasSub "哇塞" context || hasSub "爱了" context) ||
  (hasSub "熬夜" context || hasSub "疲惫" context) ||
  (hasSub "好物" context || hasSub "推荐" context)

/-- C7 amended: `search_web` and `query_product_database` are deterministic
functions of their argument, but `generate_emoji` is deterministic only when
its context hits one of the keyword branches; its fallback consults the
process-wide RNG, so equal arguments need not give equal results (see the
counterexample).  On keyword-matching contexts the result is independent of
the RNG. -/
theorem claim_C7 (s₁ s₂ : List String → Nat → List String) (context : String)
    (h : emojiKeywordHit context = true) :
    mock_generate_emoji s₁ context = mock_generate_emoji s₂ context := by
  unfold emojiKeywordHit at h
  unfold mock_generate_emoji
  by_cases h₁ : (hasSub "补水" context || hasSub "水润" context || hasSub "保湿" context) = true
  · simp [h₁]
  · by_cases h₂ : (hasSub "惊喜" context || hasSub "哇塞" context || hasSub "爱了" context) = true
    · simp [h₁, h₂]
    · by_cases h₃ : (hasSub "熬夜" context || hasSub "疲惫" context) = true
      · simp [h₁, h₂, h₃]
      · by_cases h₄ : (hasSub "好物" context || hasSub "推荐" context) = true
        · simp [h₁, h₂, h₃, h₄]
        · exfalso
          simp only [Bool.or_eq_true] at h
          rcases h with ((h | h) | h) | h
          · exact h₁ (by simp [Bool.or_eq_true, h])
          · exact h₂ (by simp [Bool.or_eq_true, h])
          · exact h₃ (by simp [Bool.or_eq_true, h])
          · exact h₄ (by simp [Bool.or_eq_true, h])

/-- C7 witness: a keyword context on which the amended statement applies. -/
theorem claim_C7_witness :
    emojiKeywordHit "补水" = true ∧
      mock_generate_emoji sampleTake "补水" = mock_generate_emoji sampleRev "补水" :=
  ⟨by decide, claim_C7 sampleTake sampleRev "补水" (by decide)⟩

/-! ## Tool-batch lemmas -/

/-- The content a resolved request contributes (total version of
`toolContent`, meaningful when the request resolves without raising). -/
def toolContentD (sample : List String → Nat → List String) (tc : ToolCall) : String :=
  match toolContent sample tc with
  | .ok c => c
  | .error _ => ""

/-- A batch whose every request resolves produces exactly one tool message
per request, in request order. -/
theorem runBatch_ok (sample : List String → Nat → List String) :
    ∀ l : List ToolCall, (∀ tc ∈ l, ∃ c, toolContent sample tc = .ok c) →
      runBatch sample l = .ok (l.map fun tc => Msg.tool tc.id (toolContentD sample tc)) := by
  intro l
  induction l with
  | nil => intro _; rfl
  | cons tc rest ih =>
    intro h
    obtain ⟨c, hc⟩ := h tc (by simp)
    have hrest := ih (fun u hu => h u (by simp [hu]))
    have hd : toolContentD sample tc = c := by unfold toolContentD; rw [hc]
    simp only [runBatch, hc, hrest, List.map_cons, hd]

/-- A batch aborts with the error of its first raising request; requests
before it resolve, requests after it never run. -/
theorem runBatch_error_at (sample : List String → Nat → List String) (e : PyError) :
    ∀ (pre : List ToolCall) (tc : ToolCall) (rest : List ToolCall),
      (∀ u ∈ pre, ∃ c, toolContent sample u = .ok c) →
      toolContent sample tc = .error e →
      runBatch sample (pre ++ tc :: rest) = .error e := by
  intro pre
  induction pre with
  | nil => intro tc rest _ herr; simp only [List.nil_append, runBatch, herr]
  | cons u pre ih =>
    intro tc rest hpre herr
    obtain ⟨c, hc⟩ := hpre u (by simp)
    have h := ih tc rest (fun v hv => hpre v (by simp [hv])) herr
    simp only [List.cons_append, runBatch, hc, List.append_eq, h]

/-- First-round reduction of the loop when the batch raises. -/
theorem run_first_round_batch_error (oracle : Nat → ModelOutcome)
    (sample : List String → Nat → List String) (product_name tone_style : String)
    (n : Nat) (rm : RespMsg) (e : PyError)
    (hor : oracle 0 = .reply rm)
    (hne : rm.tool_calls ≠ [])
    (hrb : runBatch sample rm.tool_calls = .error e) :
    generate_rednote oracle sample product_name tone_style (n + 1) =
      ⟨.failure failText, 1, 1,
        initMsgs product_name tone_style ++ [Msg.assistant rm.content rm.tool_calls]⟩ := by
  unfold generate_rednote
  simp only [runAux, hor]
  rw [if_pos hne]
  simp only [hrb]

/-! ## C5 -/

/-- C5: for a valid batch (every argument string deserializes and every
dispatch succeeds or hits the unknown-tool branch), the state after the
batch is the old state, then the assistant message holding the requests,
then exactly one tool message per request, in request order, each with the
`tool_call_id` of the corresponding request of that assistant message; the
tool messages are appended together only after the whole batch resolved
(`handleToolCalls` extends the state once, after the `for` loop). -/
theorem claim_C5 (sample : List String → Nat → List String) (msgs : List Msg) (rm : RespMsg)
    (h : ∀ tc ∈ rm.tool_calls, ∃ c, toolContent sample tc = .ok c) :
    handleToolCalls sample msgs rm =
      .ok (msgs ++ Msg.assistant rm.content rm.tool_calls ::
        rm.tool_calls.map fun tc => Msg.tool tc.id (toolContentD sample tc)) ∧
    (rm.tool_calls.map fun tc => Msg.tool tc.id (toolContentD sample tc)).length =
      rm.tool_calls.length := by
  refine ⟨?_, by simp⟩
  unfold handleToolCalls
  rw [runBatch_ok sample rm.tool_calls h]

/-- A valid four-request batch: a registered tool with a string argument,
an unknown tool, a registered tool with a **list-valued** argument (Python
dispatches it successfully — `in` on a list tests element equality), and a
registered tool whose arguments carry a **duplicate key** (`json.loads`
keeps the last value, here the keyword-matching `补水`). -/
def batchW : List ToolCall :=
  [⟨"call_1", "search_web", "\x7b\"query\":\"保湿面膜\"\x7d"⟩,
   ⟨"call_2", "unknown_tool", ""⟩,
   ⟨"call_3", "search_web", "\x7b\"query\":[\"深海蓝藻保湿面膜\"]\x7d"⟩,
   ⟨"call_4", "generate_emoji", "\x7b\"context\":\"备\",\"context\":\"补水\"\x7d"⟩]

/-- C5 witness: the theorem applied to a concrete valid batch. -/
theorem claim_C5_witness :
    (∀ tc ∈ batchW, ∃ c, toolContent sampleTake tc = .ok c) ∧
    handleToolCalls sampleTake [] ⟨batchW, none⟩ =
      .ok ([] ++ Msg.assistant none batchW ::
        batchW.map fun tc => Msg.tool tc.id (toolContentD sampleTake tc)) := by
  have hval : ∀ tc ∈ batchW, ∃ c, toolContent sampleTake tc = .ok c := by
    intro tc htc
    simp only [batchW, List.mem_cons, List.not_mem_nil, or_false] at htc
    rcases htc with rfl | rfl | rfl | rfl
    · exact ⟨_, rfl⟩
    · exact ⟨_, rfl⟩
    · exact ⟨_, rfl⟩
    · exact ⟨_, rfl⟩
  exact ⟨hval, (claim_C5 sampleTake [] ⟨batchW, none⟩ hval).1⟩

/-! ## C1 -/

def tcBadArgs : ToolCall := ⟨"call_1", "search_web", "not json"⟩

/-- C1 counterexample: the model requests a tool whose `arguments` string
does not deserialize.  Contrary to the claim, no tool-role error message is
synthesized and the loop does not continue: the run stops after one model
call (with budget for 3) and returns the artifact-less failure string.  The
final state holds the assistant message but no tool message. -/
theorem claim_C1_counterexample :
    generate_rednote oracleBadArgs sampleTake "深海蓝藻保湿面膜" "活泼甜美" 3 =
      ⟨.failure failText, 1, 1,
        initMsgs "深海蓝藻保湿面膜" "活泼甜美" ++ [Msg.assistant none [tcBadArgs]]⟩ := by
  rfl

/-- C1 amended: when the first raising request of the batch is one whose
non-empty `arguments` string fails to deserialize, the `json.loads` call at
line 277 raises, the per-iteration handler catches it and breaks: the run
returns the failure string after that single model invocation, the
assistant message is in the final state, and no tool-role message is. -/
theorem claim_C1 (oracle : Nat → ModelOutcome) (sample : List String → Nat → List String)
    (product_name tone_style : String) (n : Nat) (rm : RespMsg)
    (pre : List ToolCall) (tc : ToolCall) (rest : List ToolCall)
    (hor : oracle 0 = .reply rm)
    (hbatch : rm.tool_calls = pre ++ tc :: rest)
    (hpre : ∀ u ∈ pre, ∃ c, toolContent sample u = .ok c)
    (hargs : tc.arguments ≠ "")
    (hbad : jsonLoads tc.arguments = none) :
    generate_rednote oracle sample product_name tone_style (n + 1) =
      ⟨.failure failText, 1, 1,
        initMsgs product_name tone_style ++ [Msg.assistant rm.content rm.tool_calls]⟩ := by
  have herr : toolContent sample tc = .error .jsonDecodeError := by
    unfold toolContent parseArgs
    rw [if_neg hargs, hbad]
  have hrb : runBatch sample rm.tool_calls = .error .jsonDecodeError := by
    rw [hbatch]; exact runBatch_error_at sample _ pre tc rest hpre herr
  have hne : rm.tool_calls ≠ [] := by rw [hbatch]; simp
  exact run_first_round_batch_error oracle sample product_name tone_style n rm _ hor hne hrb

/-- C1 witness: the amended theorem applied to a concrete run. -/
theorem claim_C1_witness :
    jsonLoads "not json" = none ∧
    generate_rednote oracleBadArgs sampleTake "美白精华" "知性温柔" 5 =
      ⟨.failure failText, 1, 1,
        initMsgs "美白精华" "知性温柔" ++ [Msg.assistant none [tcBadArgs]]⟩ :=
  ⟨rfl,
    claim_C1 oracleBadArgs sampleTake "美白精华" "知性温柔" 4 ⟨[tcBadArgs], none⟩
      [] tcBadArgs [] rfl rfl (by intro u hu; cases hu) (by decide) rfl⟩

/-! ## C2 -/

def tcBadBind : ToolCall := ⟨"call_1", "search_web", "\x7b\x7d"⟩

/-- C2 counterexample: the model requests the registered tool `search_web`
with valid-JSON arguments `{}` that its handler signature rejects, so the
dispatch `tool_function(**function_args)` raises `TypeError`.  Contrary to
the claim, the failure is not converted into tool-message content: the run
terminates after one model call (with budget for 5) and returns the
artifact-less failure string — a third way, besides transport fault and
budget exhaustion, for a run to end without an artifact. -/
theorem claim_C2_counterexample :
    generate_rednote oracleBadBind sampleTake "深海蓝藻保湿面膜" "活泼甜美" 5 =
      ⟨.failure failText, 1, 1,
        initMsgs "深海蓝藻保湿面膜" "活泼甜美" ++ [Msg.assistant none [tcBadBind]]⟩ := by
  rfl

/-- C2 amended: when the first raising request of the batch is one whose
registered handler raises during dispatch, the exception propagates to the
per-iteration handler, which breaks the loop: the run returns the failure
string after that single model invocation, with no tool-role message
appended, so handler failure is a further artifact-less outcome besides
transport fault and budget exhaustion. -/
theorem claim_C2 (oracle : Nat → ModelOutcome) (sample : List String → Nat → List String)
    (product_name tone_style : String) (n : Nat) (rm : RespMsg)
    (pre : List ToolCall) (tc : ToolCall) (rest : List ToolCall) (args : Json) (e : PyError)
    (hor : oracle 0 = .reply rm)
    (hbatch : rm.tool_calls = pre ++ tc :: rest)
    (hpre : ∀ u ∈ pre, ∃ c, toolContent sample u = .ok c)
    (hargs : parseArgs tc.arguments = .ok args)
    (hknown : toolNames.contains tc.name = true)
    (hfail : callTool sample tc.name args = .error e) :
    generate_rednote oracle sample product_name tone_style (n + 1) =
      ⟨.failure failText, 1, 1,
        initMsgs product_name tone_style ++ [Msg.assistant rm.content rm.tool_calls]⟩ := by
  have herr : toolContent sample tc = .error e := by
    unfold toolContent
    simp only [hargs, hknown, if_true, hfail, Except.map]
  have hrb : runBatch sample rm.tool_calls = .error e := by
    rw [hbatch]; exact runBatch_error_at sample _ pre tc rest hpre herr
  have hne : rm.tool_calls ≠ [] := by rw [hbatch]; simp
  exact run_first_round_batch_error oracle sample product_name tone_style n rm _ hor hne hrb

/-- C2 witness: the amended theorem applied to a concrete run. -/
theorem claim_C2_witness :
    parseArgs "\x7b\x7d" = .ok (.obj []) ∧
    callTool sampleTake "search_web" (.obj []) = .error .typeError ∧
    generate_rednote oracleBadBind sampleTake "美白精华" "知性温柔" 4 =
      ⟨.failure failText, 1, 1,
        initMsgs "美白精华" "知性温柔" ++ [Msg.assistant none [tcBadBind]]⟩ :=
  ⟨rfl, rfl,
    claim_C2 oracleBadBind sampleTake "美白精华" "知性温柔" 3 ⟨[tcBadBind], none⟩
      [] tcBadBind [] (.obj []) .typeError rfl rfl (by intro u hu; cases hu) rfl rfl rfl⟩

/-! ## C6 -/

/-- C6 counterexample: a record with no `title` field renders with the
placeholder `无标题`, not the empty string the claim asserts (the empty
string would render as `##`). -/
theorem claim_C6_counterexample :
    format_rednote_for_markdown "\x7b\"body\":\"B\"\x7d" = .ok "## 无标题\n\nB" := by
  rfl

/-- C6 amended: a successfully deserialized record is accepted even when
optional fields (`emojis`, or any other) are absent — the parser applies no
field validation at all — and in the **renderer** a missing `body` defaults
to the empty string while a missing `title` defaults to the placeholder
`无标题` rather than the empty string. -/
theorem claim_C6 :
    parseResponse "\x7b\"title\":\"A\",\"body\":\"B\",\"hashtags\":[\"#x\"]\x7d" =
      some (.obj [("title", .str "A"), ("body", .str "B"), ("hashtags", .arr [.str "#x"])]) ∧
    format_rednote_for_markdown "\x7b\"title\":\"T\"\x7d" = .ok "## T" ∧
    format_rednote_for_markdown "\x7b\x7d" = .ok "## 无标题" :=
  ⟨rfl, rfl, rfl⟩

/-! ## C8 -/

/-- C8: the parser reaches the whole-text fallback exactly when no fenced
span exists.  First two conjuncts: the spec's bare payload has no fenced
span and still parses, via the fallback.  Last two conjuncts: on a text
which contains a fenced span that fails to deserialize, the parser fails
even though deserializing the entire raw text would have succeeded — the
fallback is attempted only when no fenced span exists. -/
theorem claim_C8 :
    searchFence ("\x7b\"title\":\"A\",\"body\":\"B\",\"hashtags\":[],\"emojis\":[]\x7d").data = none ∧
    parseResponse "\x7b\"title\":\"A\",\"body\":\"B\",\"hashtags\":[],\"emojis\":[]\x7d" =
      some (.obj [("title", .str "A"), ("body", .str "B"),
        ("hashtags", .arr []), ("emojis", .arr [])]) ∧
    parseResponse "\"abc ```json \x7b1\x7d ``` def\"" = none ∧
    jsonLoads "\"abc ```json \x7b1\x7d ``` def\"" = some (.str "abc ```json \x7b1\x7d ``` def") :=
  ⟨rfl, rfl, rfl, rfl⟩

/-! ## C10 -/

/-- C10: on any input that `json.loads` rejects, the renderer does not
raise: it returns (`.ok`) a string that is the fixed error header followed
by the original input, and that string begins with the error marker `错误`.
The function has no other effect — the embedding is a pure function of the
input string. -/
theorem claim_C10 (s : String) (h : jsonLoads s = none) :
    format_rednote_for_markdown s = .ok (jsonErrHeader ++ s) ∧
    jsonErrHeader ++ s =
      "错误" ++ ("：无法解析 JSON 字符串 - JSONDecodeError\n原始字符串：\n" ++ s) := by
  constructor
  · unfold format_rednote_for_markdown
    rw [h]
  · rw [← String.append_assoc]
    rfl

/-- C10 witness: the theorem applied to a concrete non-JSON input. -/
theorem claim_C10_witness :
    jsonLoads "not a json document" = none ∧
    format_rednote_for_markdown "not a json document" =
      .ok (jsonErrHeader ++ "not a json document") :=
  ⟨rfl, (claim_C10 "not a json document" rfl).1⟩

/-! ## C9: the fenced round-trip.  Stage 1: string-literal inversion. -/

theorem escapeList_nil : escapeList [] = [] := rfl

theorem escapeList_cons (c : Char) (s : List Char) :
    escapeList (c :: s) = escChar c ++ escapeList s := by
  simp [escapeList]

theorem escChar_plain (c : Char) (h1 : c ≠ '"') (h2 : c ≠ '\\') (h3 : ¬ c.toNat < 32) :
    escChar c = [c] := by
  have h4 : c ≠ '\n' := fun heq => h3 (by rw [heq]; decide)
  have h5 : c ≠ '\t' := fun heq => h3 (by rw [heq]; decide)
  have h6 : c ≠ '\r' := fun heq => h3 (by rw [heq]; decide)
  have h7 : ¬ c.toNat = 8 := by omega
  have h8 : ¬ c.toNat = 12 := by omega
  simp only [escChar, if_neg h1, if_neg h2, if_neg h4, if_neg h5, if_neg h6,
    if_neg h7, if_neg h8, if_neg h3]

theorem escChar_ctrl (c : Char) (h1 : c ≠ '\n') (h2 : c ≠ '\t') (h3 : c ≠ '\r')
    (h4 : ¬ c.toNat = 8) (h5 : ¬ c.toNat = 12) (h6 : c.toNat < 32) :
    escChar c = ['\\', 'u', '0', '0', hexDig (c.toNat / 16), hexDig (c.toNat % 16)] := by
  have hq : c ≠ '"' := fun heq => by rw [heq] at h6; exact absurd h6 (by decide)
  have hb : c ≠ '\\' := fun heq => by rw [heq] at h6; exact absurd h6 (by decide)
  simp only [escChar, if_neg hq, if_neg hb, if_neg h1, if_neg h2, if_neg h3,
    if_neg h4, if_neg h5, if_pos h6]

/-- The `\u00XX` escapes that `json.dumps` emits parse back to the encoded
code point. -/
theorem parseStringBody_u00 (hi lo : Nat) (hhi : hi < 2) (hlo : lo < 16)
    (f : Nat) (tail : List Char) :
    parseStringBody (f + 1) ('\\' :: 'u' :: '0' :: '0' :: hexDig hi :: hexDig lo :: tail) =
      (parseStringBody f tail).map (fun p => (Char.ofNat (hi * 16 + lo) :: p.1, p.2)) := by
  interval_cases hi <;> interval_cases lo <;> rfl

/-- Decoding inverts `json.dumps` string escaping: the escaped form of `s`
followed by the closing quote parses back to exactly `s`. -/
theorem parseStringBody_esc :
    ∀ (s rest : List Char) (fuel : Nat),
      (escapeList s).length < fuel →
      parseStringBody fuel (escapeList s ++ '"' :: rest) = some (s, rest) := by
  intro s
  induction s with
  | nil =>
    intro rest fuel hf
    rw [escapeList_nil] at hf
    obtain ⟨f, rfl⟩ : ∃ f, fuel = f + 1 := ⟨fuel - 1, by omega⟩
    rfl
  | cons c s ih =>
    intro rest fuel hf
    rw [escapeList_cons] at hf ⊢
    rw [List.length_append] at hf
    by_cases hq : c = '"'
    · subst hq
      have hlen : (escChar '"').length = 2 := rfl
      obtain ⟨f, rfl⟩ : ∃ f, fuel = f + 1 := ⟨fuel - 1, by omega⟩
      have hstep : parseStringBody (f + 1) (escChar '"' ++ escapeList s ++ '"' :: rest) =
          (parseStringBody f (escapeList s ++ '"' :: rest)).map
            (fun p => ('"' :: p.1, p.2)) := rfl
      rw [hstep, ih rest f (by omega)]
      rfl
    · by_cases hb : c = '\\'
      · subst hb
        have hlen : (escChar '\\').length = 2 := rfl
        obtain ⟨f, rfl⟩ : ∃ f, fuel = f + 1 := ⟨fuel - 1, by omega⟩
        have hstep : parseStringBody (f + 1) (escChar '\\' ++ escapeList s ++ '"' :: rest) =
            (parseStringBody f (escapeList s ++ '"' :: rest)).map
              (fun p => ('\\' :: p.1, p.2)) := rfl
        rw [hstep, ih rest f (by omega)]
        rfl
      · by_cases hn : c = '\n'
        · subst hn
          have hlen : (escChar '\n').length = 2 := rfl
          obtain ⟨f, rfl⟩ : ∃ f, fuel = f + 1 := ⟨fuel - 1, by omega⟩
          have hstep : parseStringBody (f + 1) (escChar '\n' ++ escapeList s ++ '"' :: rest) =
              (parseStringBody f (escapeList s ++ '"' :: rest)).map
                (fun p => ('\n' :: p.1, p.2)) := rfl
          rw [hstep, ih rest f (by omega)]
          rfl
        · by_cases ht : c = '\t'
          · subst ht
            have hlen : (escChar '\t').length = 2 := rfl
            obtain ⟨f, rfl⟩ : ∃ f, fuel = f + 1 := ⟨fuel - 1, by omega⟩
            have hstep : parseStringBody (f + 1) (escChar '\t' ++ escapeList s ++ '"' :: rest) =
                (parseStringBody f (escapeList s ++ '"' :: rest)).map
                  (fun p => ('\t' :: p.1, p.2)) := rfl
            rw [hstep, ih rest f (by omega)]
            rfl
          · by_cases hr : c = '\r'
            · subst hr
              have hlen : (escChar '\r').length = 2 := rfl
              obtain ⟨f, rfl⟩ : ∃ f, fuel = f + 1 := ⟨fuel - 1, by omega⟩
              have hstep : parseStringBody (f + 1) (escChar '\r' ++ escapeList s ++ '"' :: rest) =
                  (parseStringBody f (escapeList s ++ '"' :: rest)).map
                    (fun p => ('\r' :: p.1, p.2)) := rfl
              rw [hstep, ih rest f (by omega)]
              rfl
            · by_cases h8 : c.toNat = 8
              · have hc : c = Char.ofNat 8 := by rw [← Char.ofNat_toNat c, h8]
                subst hc
                have hlen : (escChar (Char.ofNat 8)).length = 2 := rfl
                obtain ⟨f, rfl⟩ : ∃ f, fuel = f + 1 := ⟨fuel - 1, by omega⟩
                have hstep : parseStringBody (f + 1)
                    (escChar (Char.ofNat 8) ++ escapeList s ++ '"' :: rest) =
                    (parseStringBody f (escapeList s ++ '"' :: rest)).map
                      (fun p => (Char.ofNat 8 :: p.1, p.2)) := rfl
                rw [hstep, ih rest f (by omega)]
                rfl
              · by_cases h12 : c.toNat = 12
                · have hc : c = Char.ofNat 12 := by rw [← Char.ofNat_toNat c, h12]
                  subst hc
                  have hlen : (escChar (Char.ofNat 12)).length = 2 := rfl
                  obtain ⟨f, rfl⟩ : ∃ f, fuel = f + 1 := ⟨fuel - 1, by omega⟩
                  have hstep : parseStringBody (f + 1)
                      (escChar (Char.ofNat 12) ++ escapeList s ++ '"' :: rest) =
                      (parseStringBody f (escapeList s ++ '"' :: rest)).map
                        (fun p => (Char.ofNat 12 :: p.1, p.2)) := rfl
                  rw [hstep, ih rest f (by omega)]
                  rfl
                · by_cases hctrl : c.toNat < 32
                  · rw [escChar_ctrl c hn ht hr h8 h12 hctrl] at hf ⊢
                    have hlen : (['\\', 'u', '0', '0', hexDig (c.toNat / 16),
                        hexDig (c.toNat % 16)]).length = 6 := rfl
                    obtain ⟨f, rfl⟩ : ∃ f, fuel = f + 1 := ⟨fuel - 1, by omega⟩
                    have hassoc : ['\\', 'u', '0', '0', hexDig (c.toNat / 16),
                        hexDig (c.toNat % 16)] ++ escapeList s ++ '"' :: rest =
                        '\\' :: 'u' :: '0' :: '0' :: hexDig (c.toNat / 16) ::
                          hexDig (c.toNat % 16) :: (escapeList s ++ '"' :: rest) := rfl
                    rw [hassoc, parseStringBody_u00 _ _ (by omega) (by omega) f _,
                      ih rest f (by omega)]
                    have harith : c.toNat / 16 * 16 + c.toNat % 16 = c.toNat := by omega
                    rw [harith, Char.ofNat_toNat]
                    rfl
                  · rw [escChar_plain c hq hb hctrl] at hf ⊢
                    obtain ⟨f, rfl⟩ : ∃ f, fuel = f + 1 := ⟨fuel - 1, by omega⟩
                    have hassoc : [c] ++ escapeList s ++ '"' :: rest =
                        c :: (escapeList s ++ '"' :: rest) := rfl
                    rw [hassoc]
                    simp only [parseStringBody, if_neg hq, if_neg hb, if_neg hctrl]
                    rw [ih rest f (by simp at hf; omega)]
                    rfl

/-! ## C9 stage 2: value-level parse lemmas for the serialized artifact. -/

theorem parseCore_strLit (f : Nat) (s : String) (rest : List Char) :
    parseCore (f + 1) .value (strLitL s ++ rest) = some (.val (.str s), rest) := by
  have h1 : strLitL s ++ rest = '"' :: (escapeList s.data ++ '"' :: rest) := by
    simp [strLitL]
  rw [h1]
  have hstep : parseCore (f + 1) .value ('"' :: (escapeList s.data ++ '"' :: rest)) =
      (match parseStringBody ((escapeList s.data ++ '"' :: rest).length + 1)
          (escapeList s.data ++ '"' :: rest) with
        | some (s', r) => some (.val (.str (String.mk s')), r)
        | none => none) := rfl
  rw [hstep, parseStringBody_esc s.data rest _ (by simp; omega)]

/-- Parsing the comma-separated string elements after `[`. -/
theorem parseCore_items_strs :
    ∀ (l : List String) (s : String) (f : Nat) (rest : List Char),
      parseCore (f + l.length + 2) .items (qListInner (s :: l) ++ ']' :: rest) =
        some (.list ((s :: l).map Json.str), rest) := by
  intro l
  induction l with
  | nil =>
    intro s f rest
    show parseCore ((f + 1) + 1) .items (strLitL s ++ ']' :: rest) =
      some (.list [Json.str s], rest)
    have hstep : parseCore ((f + 1) + 1) .items (strLitL s ++ ']' :: rest) =
        (match parseCore (f + 1) .value (strLitL s ++ ']' :: rest) with
          | some (.val j, r) =>
            (match skipJsonWs r with
              | ',' :: r₂ =>
                (match parseCore (f + 1) .items r₂ with
                  | some (.list js, r₃) => some (.list (j :: js), r₃)
                  | _ => none)
              | ']' :: r₂ => some (.list [j], r₂)
              | _ => none)
          | _ => none) := rfl
    rw [hstep, parseCore_strLit f s (']' :: rest)]
    rfl
  | cons s₂ l₂ ih =>
    intro s f rest
    show parseCore ((f + l₂.length + 2) + 1) .items
        ((strLitL s ++ ',' :: qListInner (s₂ :: l₂)) ++ ']' :: rest) =
      some (.list (Json.str s :: (s₂ :: l₂).map Json.str), rest)
    rw [List.append_assoc, List.cons_append]
    have hstep : parseCore ((f + l₂.length + 2) + 1) .items
        (strLitL s ++ ',' :: (qListInner (s₂ :: l₂) ++ ']' :: rest)) =
        (match parseCore (f + l₂.length + 2) .value
            (strLitL s ++ ',' :: (qListInner (s₂ :: l₂) ++ ']' :: rest)) with
          | some (.val j, r) =>
            (match skipJsonWs r with
              | ',' :: r₂ =>
                (match parseCore (f + l₂.length + 2) .items r₂ with
                  | some (.list js, r₃) => some (.list (j :: js), r₃)
                  | _ => none)
              | ']' :: r₂ => some (.list [j], r₂)
              | _ => none)
          | _ => none) := rfl
    have hv := parseCore_strLit (f + l₂.length + 1) s
      (',' :: (qListInner (s₂ :: l₂) ++ ']' :: rest))
    rw [show f + l₂.length + 1 + 1 = f + l₂.length + 2 from rfl] at hv
    rw [hstep, hv]
    show (match parseCore (f + l₂.length + 2) .items (qListInner (s₂ :: l₂) ++ ']' :: rest) with
        | some (POut.list js, r₃) => some (POut.list (Json.str s :: js), r₃)
        | _ => none : Option (POut × List Char)) =
      some (POut.list (Json.str s :: (s₂ :: l₂).map Json.str), rest)
    rw [ih s₂ f rest]

/-- Parsing the serialized form of a string list. -/
theorem parseCore_qList (f : Nat) (l : List String) (rest : List Char) :
    parseCore (f + l.length + 2) .value (qListL l ++ rest) =
      some (.val (.arr (l.map Json.str)), rest) := by
  cases l with
  | nil => rfl
  | cons s l₂ =>
    have hshape : ∃ t, qListInner (s :: l₂) = '"' :: t := by
      cases l₂
      · exact ⟨_, rfl⟩
      · exact ⟨_, rfl⟩
    obtain ⟨t, ht⟩ := hshape
    have hin : qListL (s :: l₂) ++ rest = '[' :: '"' :: (t ++ ']' :: rest) := by
      simp [qListL, ht, List.append_assoc]
    rw [hin]
    show parseCore ((f + l₂.length + 2) + 1) .value ('[' :: '"' :: (t ++ ']' :: rest)) =
      some (.val (.arr ((s :: l₂).map Json.str)), rest)
    have hstep : parseCore ((f + l₂.length + 2) + 1) .value ('[' :: '"' :: (t ++ ']' :: rest)) =
        (match parseCore (f + l₂.length + 2) .items ('"' :: (t ++ ']' :: rest)) with
          | some (.list js, r) => some (.val (.arr js), r)
          | _ => none) := rfl
    rw [hstep]
    have hback : ('"' : Char) :: (t ++ ']' :: rest) = qListInner (s :: l₂) ++ ']' :: rest := by
      rw [ht]; rfl
    rw [hback, parseCore_items_strs l₂ s f rest]

/-- Object opening: `{` followed by a quoted key. -/
theorem parseCore_obj_step (g : Nat) (t : List Char) :
    parseCore (g + 1) .value ('{' :: '"' :: t) =
      (match parseCore g .fields ('"' :: t) with
        | some (.flds fs, r) => some (.val (.obj fs), r)
        | _ => none) := rfl

theorem fields_step_title (g : Nat) (tail r₅ r₆ : List Char) (v : Json)
    (fs : List (String × Json))
    (hv : parseCore g .value tail = some (.val v, ',' :: r₅))
    (hf : parseCore g .fields r₅ = some (.flds fs, r₆)) :
    parseCore (g + 1) .fields
        ('"' :: 't' :: 'i' :: 't' :: 'l' :: 'e' :: '"' :: ':' :: tail) =
      some (.flds (("title", v) :: fs), r₆) := by
  have h1 : parseCore (g + 1) .fields
      ('"' :: 't' :: 'i' :: 't' :: 'l' :: 'e' :: '"' :: ':' :: tail) =
      (match parseCore g .value tail with
        | some (.val v, r₄) =>
          (match skipJsonWs r₄ with
            | ',' :: r₅ =>
              (match parseCore g .fields r₅ with
                | some (.flds fs, r₆) => some (.flds (("title", v) :: fs), r₆)
                | _ => none)
            | '}' :: r₅ => some (.flds [("title", v)], r₅)
            | _ => none)
        | _ => none) := rfl
  rw [h1, hv]
  show (match parseCore g .fields r₅ with
      | some (POut.flds fs, r₆) => some (POut.flds (("title", v) :: fs), r₆)
      | _ => none : Option (POut × List Char)) = some (POut.flds (("title", v) :: fs), r₆)
  rw [hf]

theorem fields_step_body (g : Nat) (tail r₅ r₆ : List Char) (v : Json)
    (fs : List (String × Json))
    (hv : parseCore g .value tail = some (.val v, ',' :: r₅))
    (hf : parseCore g .fields r₅ = some (.flds fs, r₆)) :
    parseCore (g + 1) .fields ('"' :: 'b' :: 'o' :: 'd' :: 'y' :: '"' :: ':' :: tail) =
      some (.flds (("body", v) :: fs), r₆) := by
  have h1 : parseCore (g + 1) .fields ('"' :: 'b' :: 'o' :: 'd' :: 'y' :: '"' :: ':' :: tail) =
      (match parseCore g .value tail with
        | some (.val v, r₄) =>
          (match skipJsonWs r₄ with
            | ',' :: r₅ =>
              (match parseCore g .fields r₅ with
                | some (.flds fs, r₆) => some (.flds (("body", v) :: fs), r₆)
                | _ => none)
            | '}' :: r₅ => some (.flds [("body", v)], r₅)
            | _ => none)
        | _ => none) := rfl
  rw [h1, hv]
  show (match parseCore g .fields r₅ with
      | some (POut.flds fs, r₆) => some (POut.flds (("body", v) :: fs), r₆)
      | _ => none : Option (POut × List Char)) = some (POut.flds (("body", v) :: fs), r₆)
  rw [hf]

theorem fields_step_hashtags (g : Nat) (tail r₅ r₆ : List Char) (v : Json)
    (fs : List (String × Json))
    (hv : parseCore g .value tail = some (.val v, ',' :: r₅))
    (hf : parseCore g .fields r₅ = some (.flds fs, r₆)) :
    parseCore (g + 1) .fields
        ('"' :: 'h' :: 'a' :: 's' :: 'h' :: 't' :: 'a' :: 'g' :: 's' :: '"' :: ':' :: tail) =
      some (.flds (("hashtags", v) :: fs), r₆) := by
  have h1 : parseCore (g + 1) .fields
      ('"' :: 'h' :: 'a' :: 's' :: 'h' :: 't' :: 'a' :: 'g' :: 's' :: '"' :: ':' :: tail) =
      (match parseCore g .value tail with
        | some (.val v, r₄) =>
          (match skipJsonWs r₄ with
            | ',' :: r₅ =>
              (match parseCore g .fields r₅ with
                | some (.flds fs, r₆) => some (.flds (("hashtags", v) :: fs), r₆)
                | _ => none)
            | '}' :: r₅ => some (.flds [("hashtags", v)], r₅)
            | _ => none)
        | _ => none) := rfl
  rw [h1, hv]
  show (match parseCore g .fields r₅ with
      | some (POut.flds fs, r₆) => some (POut.flds (("hashtags", v) :: fs), r₆)
      | _ => none : Option (POut × List Char)) = some (POut.flds (("hashtags", v) :: fs), r₆)
  rw [hf]

theorem fields_step_emojis (g : Nat) (tail r : List Char) (v : Json)
    (hv : parseCore g .value tail = some (.val v, '}' :: r)) :
    parseCore (g + 1) .fields
        ('"' :: 'e' :: 'm' :: 'o' :: 'j' :: 'i' :: 's' :: '"' :: ':' :: tail) =
      some (.flds [("emojis", v)], r) := by
  have h1 : parseCore (g + 1) .fields
      ('"' :: 'e' :: 'm' :: 'o' :: 'j' :: 'i' :: 's' :: '"' :: ':' :: tail) =
      (match parseCore g .value tail with
        | some (.val v, r₄) =>
          (match skipJsonWs r₄ with
            | ',' :: r₅ =>
              (match parseCore g .fields r₅ with
                | some (.flds fs, r₆) => some (.flds (("emojis", v) :: fs), r₆)
                | _ => none)
            | '}' :: r₅ => some (.flds [("emojis", v)], r₅)
            | _ => none)
        | _ => none) := rfl
  rw [h1, hv]
  rfl

/-! ## C9 stage 3: the whole serialized object, and the fence extraction. -/

/-- Parsing the full serialized GeneratedArtifact object. -/
theorem parseCore_dumpsArtifact (a : Artifact) (f : Nat) (rest : List Char) :
    parseCore (f + a.hashtags.length + a.emojis.length + 7) .value (dumpsArtifactL a ++ rest) =
      some (.val (artifactJson a), rest) := by
  obtain ⟨ti, bo, hs, em⟩ := a
  dsimp only
  have e1 : ("\"title\":").data = ['"', 't', 'i', 't', 'l', 'e', '"', ':'] := rfl
  have e2 : (",\"body\":").data = [',', '"', 'b', 'o', 'd', 'y', '"', ':'] := rfl
  have e3 : (",\"hashtags\":").data = [',', '"', 'h', 'a', 's', 'h', 't', 'a', 'g', 's', '"', ':'] := rfl
  have e4 : (",\"emojis\":").data = [',', '"', 'e', 'm', 'o', 'j', 'i', 's', '"', ':'] := rfl
  have hk : dumpsArtifactL ⟨ti, bo, hs, em⟩ ++ rest =
      '{' :: '"' :: 't' :: 'i' :: 't' :: 'l' :: 'e' :: '"' :: ':' ::
        (strLitL ti ++ (',' :: '"' :: 'b' :: 'o' :: 'd' :: 'y' :: '"' :: ':' ::
          (strLitL bo ++ (',' :: '"' :: 'h' :: 'a' :: 's' :: 'h' :: 't' :: 'a' :: 'g' :: 's' :: '"' :: ':' ::
            (qListL hs ++ (',' :: '"' :: 'e' :: 'm' :: 'o' :: 'j' :: 'i' :: 's' :: '"' :: ':' ::
              (qListL em ++ ('}' :: rest)))))))) := by
    simp [dumpsArtifactL, e1, e2, e3, e4, List.append_assoc]
  rw [hk]
  change parseCore (f + hs.length + em.length + 6 + 1) .value _ = _
  rw [parseCore_obj_step]
  have hvE := parseCore_qList (f + hs.length) em ('}' :: rest)
  have h4 := fields_step_emojis (f + hs.length + em.length + 2) (qListL em ++ '}' :: rest)
    rest (.arr (em.map Json.str)) hvE
  rw [show f + hs.length + em.length + 2 + 1 = f + hs.length + em.length + 3 from rfl] at h4
  have hvH := parseCore_qList (f + em.length + 1) hs
    (',' :: '"' :: 'e' :: 'm' :: 'o' :: 'j' :: 'i' :: 's' :: '"' :: ':' :: (qListL em ++ '}' :: rest))
  rw [show f + em.length + 1 + hs.length + 2 = f + hs.length + em.length + 3 from by omega] at hvH
  have h3 := fields_step_hashtags (f + hs.length + em.length + 3) _ _ _ _ _ hvH h4
  rw [show f + hs.length + em.length + 3 + 1 = f + hs.length + em.length + 4 from rfl] at h3
  have hvB := parseCore_strLit (f + hs.length + em.length + 3) bo
    (',' :: '"' :: 'h' :: 'a' :: 's' :: 'h' :: 't' :: 'a' :: 'g' :: 's' :: '"' :: ':' ::
      (qListL hs ++ (',' :: '"' :: 'e' :: 'm' :: 'o' :: 'j' :: 'i' :: 's' :: '"' :: ':' ::
        (qListL em ++ ('}' :: rest)))))
  rw [show f + hs.length + em.length + 3 + 1 = f + hs.length + em.length + 4 from rfl] at hvB
  have h2 := fields_step_body (f + hs.length + em.length + 4) _ _ _ _ _ hvB h3
  rw [show f + hs.length + em.length + 4 + 1 = f + hs.length + em.length + 5 from rfl] at h2
  have hvT := parseCore_strLit (f + hs.length + em.length + 4) ti
    (',' :: '"' :: 'b' :: 'o' :: 'd' :: 'y' :: '"' :: ':' ::
      (strLitL bo ++ (',' :: '"' :: 'h' :: 'a' :: 's' :: 'h' :: 't' :: 'a' :: 'g' :: 's' :: '"' :: ':' ::
        (qListL hs ++ (',' :: '"' :: 'e' :: 'm' :: 'o' :: 'j' :: 'i' :: 's' :: '"' :: ':' ::
          (qListL em ++ ('}' :: rest)))))))
  rw [show f + hs.length + em.length + 4 + 1 = f + hs.length + em.length + 5 from rfl] at hvT
  have h1 := fields_step_title (f + hs.length + em.length + 5) _ _ _ _ _ hvT h2
  rw [show f + hs.length + em.length + 5 + 1 = f + hs.length + em.length + 6 from rfl] at h1
  rw [h1]
  rfl

theorem qListInner_length (l : List String) : l.length ≤ (qListInner l).length := by
  induction l with
  | nil => simp [qListInner]
  | cons s rest ih =>
    cases rest with
    | nil => simp [qListInner, strLitL]
    | cons s₂ rest₂ =>
      have he : qListInner (s :: s₂ :: rest₂) = strLitL s ++ ',' :: qListInner (s₂ :: rest₂) := rfl
      have hsl : 1 ≤ (strLitL s).length := by simp [strLitL]
      rw [he]
      simp only [List.length_append, List.length_cons] at ih ⊢
      omega

theorem qListL_length (l : List String) : l.length + 2 ≤ (qListL l).length := by
  have := qListInner_length l
  simp only [qListL, List.length_cons, List.length_append]
  simp
  omega

theorem dumpsArtifactL_length (a : Artifact) :
    a.hashtags.length + a.emojis.length + 7 ≤ (dumpsArtifactL a).length := by
  obtain ⟨ti, bo, hs, em⟩ := a
  dsimp only
  have h1 := qListL_length hs
  have h2 := qListL_length em
  simp only [dumpsArtifactL, List.length_cons, List.length_append]
  have k1 : ("\"title\":").data.length = 8 := rfl
  have k2 : (",\"body\":").data.length = 8 := rfl
  have k3 : (",\"hashtags\":").data.length = 12 := rfl
  have k4 : (",\"emojis\":").data.length = 10 := rfl
  omega

/-- `json.loads` round-trips the serialized artifact. -/
theorem jsonLoads_dumpsArtifact (a : Artifact) :
    jsonLoads (dumpsArtifact a) = some (artifactJson a) := by
  unfold jsonLoads dumpsArtifact
  rw [show (String.mk (dumpsArtifactL a)).data = dumpsArtifactL a from rfl]
  have hlen := dumpsArtifactL_length a
  obtain ⟨f, hf⟩ : ∃ f, (dumpsArtifactL a).length + 1 =
      f + a.hashtags.length + a.emojis.length + 7 :=
    ⟨(dumpsArtifactL a).length + 1 - (a.hashtags.length + a.emojis.length + 7), by omega⟩
  rw [hf]
  have h := parseCore_dumpsArtifact a f []
  rw [List.append_nil] at h
  rw [h]
  rfl

theorem splitAtLastClose_none (l : List Char) (h : '}' ∉ l) : splitAtLastClose l = none := by
  induction l with
  | nil => rfl
  | cons c rest ih =>
    simp only [List.mem_cons, not_or] at h
    simp only [splitAtLastClose]
    rw [ih h.2, if_neg ?hcond]
    case hcond =>
      intro hcond
      simp only [Bool.and_eq_true, decide_eq_true_eq] at hcond
      exact h.1 hcond.1.symm

/-- Greedy `.*` semantics: the split happens at the **last** `}` whose
suffix completes the pattern. -/
theorem splitAtLastClose_last (mid suf : List Char) (hns : '}' ∉ suf)
    (hfa : fenceAfter suf = true) :
    splitAtLastClose (mid ++ '}' :: suf) = some (mid, suf) := by
  induction mid with
  | nil =>
    simp only [List.nil_append, splitAtLastClose]
    rw [splitAtLastClose_none suf hns, if_pos (by simp [hfa])]
  | cons c mid ih =>
    simp only [List.cons_append, splitAtLastClose, List.append_eq]
    rw [ih]

/-- The fence wrapper around any brace-delimited payload is found by the
regex model, capturing exactly the payload. -/
theorem searchFence_wrap (mid : List Char) :
    searchFence ("```json\n".data ++ ('{' :: mid ++ ['}']) ++ "\n```".data) =
      some ('{' :: mid ++ ['}']) := by
  have e1 : ("```json\n").data = ['`', '`', '`', 'j', 's', 'o', 'n', '\n'] := rfl
  have e2 : ("\n```").data = ['\n', '`', '`', '`'] := rfl
  have hin : "```json\n".data ++ ('{' :: mid ++ ['}']) ++ "\n```".data =
      '`' :: '`' :: '`' :: 'j' :: 's' :: 'o' :: 'n' :: '\n' :: '{' ::
        (mid ++ '}' :: '\n' :: '`' :: '`' :: '`' :: []) := by
    simp [e1, e2, List.append_assoc]
  rw [hin]
  have hstep : searchFence ('`' :: '`' :: '`' :: 'j' :: 's' :: 'o' :: 'n' :: '\n' :: '{' ::
      (mid ++ '}' :: '\n' :: '`' :: '`' :: '`' :: [])) =
      (match tryFenceAt ('\n' :: '{' :: (mid ++ '}' :: '\n' :: '`' :: '`' :: '`' :: [])) with
        | some g => some g
        | none => searchFence ('`' :: '`' :: 'j' :: 's' :: 'o' :: 'n' :: '\n' :: '{' ::
            (mid ++ '}' :: '\n' :: '`' :: '`' :: '`' :: []))) := rfl
  rw [hstep]
  have h2 : tryFenceAt ('\n' :: '{' :: (mid ++ '}' :: '\n' :: '`' :: '`' :: '`' :: [])) =
      (match splitAtLastClose (mid ++ '}' :: '\n' :: '`' :: '`' :: '`' :: []) with
        | some (pre, _) => some ('{' :: pre ++ ['}'])
        | none => none) := rfl
  rw [h2, splitAtLastClose_last mid _ (by decide) (by decide)]

/-- C9: serializing a GeneratedArtifact into a fenced structured block and
feeding the text to the Response Parser deserializes to exactly the record
with the same four fields, in order — `title`, `body`, `hashtags`, `emojis`
— i.e. the round-trip is the identity, field for field, for **every**
artifact, however the field strings interact with the fence delimiters or
the JSON syntax. -/
theorem claim_C9 (a : Artifact) :
    parseResponse (fencedBlock (dumpsArtifact a)) = some (artifactJson a) := by
  unfold parseResponse fencedBlock
  rw [show ("```json\n" ++ dumpsArtifact a ++ "\n```").data =
    "```json\n".data ++ dumpsArtifactL a ++ "\n```".data from by
      simp [dumpsArtifact, String.data_append]]
  obtain ⟨inner, hsh⟩ : ∃ inner, dumpsArtifactL a = '{' :: inner ++ ['}'] := ⟨_, rfl⟩
  rw [hsh, searchFence_wrap inner, ← hsh]
  exact jsonLoads_dumpsArtifact a

/-- Short-circuit `or` over two already-successful operands is Boolean `or`. -/
theorem pyOr_ok (a b : Bool) : pyOr (.ok a) (.ok b) = .ok (a || b) := by
  cases a <;> rfl

/-- On a string argument the dispatch-level body of mock_search_web agrees with
the string-typed handler: the per-type `in` tests reduce to substring tests. -/
theorem mock_search_web_py_str (q : String) :
    mock_search_web_py (.str q) = .ok (mock_search_web q) := by
  unfold mock_search_web_py mock_search_web
  by_cases h₁ : hasSub "小红书美妆趋势" q <;>
    by_cases h₂ : hasSub "保湿面膜" q <;>
      by_cases h₃ : hasSub "深海蓝藻保湿面膜" q <;>
        simp [pyIn, h₁, h₂, h₃, pyStrJson, Bind.bind, Except.bind, pure, Except.pure]

/-- On a string argument the dispatch-level body of mock_query_product_database
agrees with the string-typed handler. -/
theorem mock_query_product_database_py_str (p : String) :
    mock_query_product_database_py (.str p) = .ok (mock_query_product_database p) := by
  unfold mock_query_product_database_py mock_query_product_database
  by_cases h₁ : hasSub "深海蓝藻保湿面膜" p <;>
    by_cases h₂ : hasSub "美白精华" p <;>
      simp [pyIn, h₁, h₂, pyStrJson, Bind.bind, Except.bind, pure, Except.pure]

/-- On a string argument the dispatch-level body of mock_generate_emoji agrees
with the string-typed handler, for any sampler. -/
theorem mock_generate_emoji_py_str (sample : List String → Nat → List String)
    (c : String) :
    mock_generate_emoji_py sample (.str c) = .ok (mock_generate_emoji sample c) := by
  unfold mock_generate_emoji_py mock_generate_emoji
  simp only [pyIn, pyOr_ok, Bind.bind, Except.bind, Bool.or_assoc]
  by_cases h₁ : hasSub "补水" c || (hasSub "水润" c || hasSub "保湿" c)
  · simp [h₁, pure, Except.pure]
  · by_cases h₂ : hasSub "惊喜" c || (hasSub "哇塞" c || hasSub "爱了" c)
    · simp [h₁, h₂, pure, Except.pure]
    · by_cases h₃ : hasSub "熬夜" c || hasSub "疲惫" c
      · simp [h₁, h₂, h₃, pure, Except.pure]
      · by_cases h₄ : hasSub "好物" c || hasSub "推荐" c
        · simp [h₁, h₂, h₃, h₄, pure, Except.pure]
        · simp [h₁, h₂, h₃, h₄, pure, Except.pure]
